import Mathlib

/-!
Verification of the Tadiran/Broadlink IR climate integration
(`custom_components/tadiran/climate.py` and `config_flow.py`).

The development shallowly embeds the protocol core: the bitfield table
(`unpack`), the packer (`pack`), the pulse encoder (folded into `pack` in the
source), the entity-level mode/fan mapping (`send_state`), the session
constructor (`BroadlinkTadiran.__init__`) and the value filtering of
`BroadlinkTadiran.send`.  Integer values are Lean `Int` (Python ints are
unbounded); the 35-character bit buffer of `pack` is a `List Char`, exactly as
the Python `list("0" * 35)`.
-/

/-- A row of the `unpack` field table: `{"name": ..., "shift": ..., "bits":
..., "default": ...}` (climate.py lines 281-291). -/
structure FieldSpec where
  name : String
  shift : Nat
  bits : Nat
  default : Int
deriving DecidableEq, Repr

/-- The `unpack` field table, climate.py lines 281-291, in source order. -/
def unpack : List FieldSpec :=
  [ ⟨"unknown2", 27, 8, 0x4A⟩,
    ⟨"blow", 23, 1, 0⟩,
    ⟨"light", 21, 1, 1⟩,
    ⟨"turbo", 20, 1, 0⟩,
    ⟨"temp", 8, 4, 20⟩,
    ⟨"swing", 6, 2, 0⟩,
    ⟨"fan", 4, 2, 1⟩,
    ⟨"on", 3, 1, 1⟩,
    ⟨"mode", 0, 3, 1⟩ ]

/-- Binary digits of `n`, least-significant first; `[]` for `0`.  Structural
recursion on a fuel argument (any fuel `≥ n` gives the full digit string, see
`natBinRevFuel_getD`).  Helper for modelling Python's `"{0:0Nb}".format`. -/
def natBinRevFuel : Nat → Nat → List Char
  | 0, _ => []
  | fuel+1, n =>
    if n = 0 then [] else (if n % 2 = 1 then '1' else '0') :: natBinRevFuel fuel (n / 2)

/-- Binary digits of `n`, least-significant first; `[]` for `0`. -/
def natBinRev (n : Nat) : List Char := natBinRevFuel n n

/-- Python's `format(n, "b")` for a nonnegative `n`: most-significant digit
first, `"0"` for zero. -/
def pyBin (n : Nat) : List Char :=
  if n = 0 then ['0'] else (natBinRev n).reverse

/-- Zero-pad a digit string on the left to width `w` (Python's `0`-fill). -/
def padZeros (w : Nat) (s : List Char) : List Char :=
  List.replicate (w - s.length) '0' ++ s

/-- Python's `("{0:0%db}" % w).format(i)` (climate.py line 301): for
nonnegative `i` the zero-padded binary string; for negative `i` a `'-'` sign
followed by the digits of `|i|` zero-padded to width `w - 1` (CPython pads
between the sign and the digits). -/
def pyFormatB (w : Nat) (i : Int) : List Char :=
  if i < 0 then '-' :: padZeros (w - 1) (pyBin i.natAbs)
  else padZeros w (pyBin i.toNat)

/-- The inner loop `for i in range(descr["bits"]): bits[start + i] = v[i]`
(climate.py lines 303-304): write the first `n` characters of `v` into the
buffer starting at index `start`.  `List.set`, like the Python assignment,
replaces one position; all writes of the current table are in bounds. -/
def writeField (buf : List Char) (start : Nat) (v : List Char) : Nat → List Char
  | 0 => buf
  | n+1 => (writeField buf start v n).set (start + n) (v.getD n '0')

/-- One iteration of the `for descr in unpack` loop of `pack` (climate.py
lines 297-304): resolve the value (`vals.get(name, default)`), format it,
reverse it (`[::-1]`), and copy `bits` characters into the buffer. -/
def packStep (vals : String → Option Int) (buf : List Char) (d : FieldSpec) :
    List Char :=
  writeField buf d.shift ((pyFormatB d.bits ((vals d.name).getD d.default)).reverse) d.bits

/-- The 35-character bit buffer built by `pack` before serialization
(climate.py lines 295-304): start from `list("0" * 35)` and process the table
rows in order. -/
def packBits (vals : String → Option Int) : List Char :=
  unpack.foldl (packStep vals) (List.replicate 35 '0')

/-- The bytes of `bytearray.fromhex(PREFIX)` with `PREFIX = "26004e0000012793"`
(climate.py lines 278, 306). -/
def PREFIX_BYTES : List Nat :=
  [0x26, 0x00, 0x4e, 0x00, 0x00, 0x01, 0x27, 0x93]

/-- The bytes of `bytearray.fromhex(SUFFIX)` with
`SUFFIX = "14000d0500000000000000000000"` (climate.py lines 279, 311). -/
def SUFFIX_BYTES : List Nat :=
  [0x14, 0x00, 0x0d, 0x05, 0, 0, 0, 0, 0, 0, 0, 0, 0, 0]

/-- The pulse-pair serialization loop of `pack` (climate.py lines 307-309):
for each bit character append `0x16` and then `19` for `"0"` or `55` for any
other character. -/
def pulses (l : List Char) : List Nat :=
  l.flatMap (fun c => [0x16, if c = '0' then 19 else 55])

/-- The function `pack(vals)` (climate.py lines 294-313): prefix bytes, then a pulse pair
per bit-buffer character, then suffix bytes. -/
def pack (vals : String → Option Int) : List Nat :=
  PREFIX_BYTES ++ pulses (packBits vals) ++ SUFFIX_BYTES

/-- The value a field resolves to inside `pack`:
`vals.get(descr["name"], descr["default"])` (climate.py line 300). -/
def resolveField (vals : String → Option Int) (d : FieldSpec) : Int :=
  (vals d.name).getD d.default

/-- Read the field at `(shift, bits)` out of a bit-character buffer,
least-significant bit first.  Modelled from the spec: the read-out half of the
test-only inverse of the encoder (spec §8, round-trip property). -/
def readField (w : List Char) (shift : Nat) : Nat → Nat
  | 0 => 0
  | b+1 => (if w.getD shift '0' = '1' then 1 else 0) + 2 * readField w (shift + 1) b

/-- Second byte of every consecutive pair.  Modelled from the spec: part of
the test-only inverse of §4.2 (each pulse pair is `(marker, duration)` and the
duration byte carries the bit). -/
def pairsSecond : List Nat → List Nat
  | _ :: b :: rest => b :: pairsSecond rest
  | _ => []

/-- Duration code back to a bit character.  Modelled from the spec: inverse of
the `19`/`55` duration coding of §4.2. -/
def pulseBitChar (b : Nat) : Char :=
  if b = 19 then '0' else '1'

/-- Decode a PulseFrame back to the 35 bit characters of the command word.
Modelled from the spec: the test-only inverse of §4.2 — strip the 8 preamble
bytes, take the 70 bytes of the 35 pulse pairs, and map each pair's duration
byte back to a bit. -/
def decodeWord (frame : List Nat) : List Char :=
  ((frame.drop 8).take 70 |> pairsSecond).map pulseBitChar

/-- The filtering loop of `BroadlinkTadiran.send` (climate.py lines 334-340):
only keys that occur in the `unpack` table, with a non-`None` value, survive
into the dict handed to `pack`. -/
def send_filter (args : String → Option Int) : String → Option Int :=
  fun n => if unpack.any (fun d => d.name == n) then args n else none

/-- The method `BroadlinkTadiran.send` up to the transport hand-off (climate.py lines
333-346): the byte sequence passed to `self.dev.send_data`. -/
def send (args : String → Option Int) : List Nat :=
  pack (send_filter args)

/-! ### The climate entity (`TadiranClimate`)

Home Assistant constants used by the entity, by their string values:
`HVAC_MODE_OFF = "off"`, `HVAC_MODE_COOL = "cool"`, `HVAC_MODE_DRY = "dry"`,
`HVAC_MODE_HEAT_COOL = "heat_cool"`, `HVAC_MODE_HEAT = "heat"`,
`HVAC_MODE_FAN_ONLY = "fan_only"`, `FAN_AUTO = "auto"`, `FAN_LOW = "low"`,
`FAN_MEDIUM = "medium"`, `FAN_HIGH = "high"`, `SWING_OFF = "off"`. -/

/-- The mutable intent state of `TadiranClimate` (climate.py lines 103-115;
only the fields the claims touch). -/
structure ClimateState where
  targetTemp : Int
  hvacMode : String
  lastHvacMode : String
  fanMode : String
  swingMode : String
deriving DecidableEq, Repr

/-- The constructor `TadiranClimate.__init__` (climate.py lines 108-113): target temperature
24, mode off, last mode cool, fan auto, swing off. -/
def initClimate : ClimateState :=
  ⟨24, "off", "cool", "auto", "off"⟩

/-- The method `TadiranClimate.set_hvac_mode` (climate.py lines 228-233): stores the new
mode into `_last_hvac_mode` precisely when the new mode equals
`HVAC_MODE_OFF`, then sets `_hvac_mode`.  (`send_state` is also called; it
does not change the entity state.) -/
def set_hvac_mode (s : ClimateState) (hvac_mode : String) : ClimateState :=
  { s with
    lastHvacMode := if hvac_mode = "off" then hvac_mode else s.lastHvacMode,
    hvacMode := hvac_mode }

/-- The method `TadiranClimate.async_turn_on` (climate.py lines 274-276): set the hvac
mode to the remembered `_last_hvac_mode`. -/
def turn_on (s : ClimateState) : ClimateState :=
  set_hvac_mode s s.lastHvacMode

/-- The `args_vars` dict built by `TadiranClimate.send_state` (climate.py
lines 243-258), as the map handed to `BroadlinkTadiran.send`.  The fan dict's
`.get` fallback is `0` and the mode dict's `.get` fallback is `1`. -/
def send_state_args (s : ClimateState) : String → Option Int :=
  fun n =>
    if n = "temp" then some s.targetTemp
    else if n = "fan" then
      some (if s.fanMode = "auto" then 0
            else if s.fanMode = "low" then 1
            else if s.fanMode = "medium" then 2
            else if s.fanMode = "high" then 3
            else 0)
    else if n = "swing" then some (if s.swingMode ≠ "off" then 1 else 0)
    else if n = "on" then some (if s.hvacMode ≠ "off" then 1 else 0)
    else if n = "mode" then
      some (if s.hvacMode = "off" then 0
            else if s.hvacMode = "fan_only" then 0
            else if s.hvacMode = "cool" then 1
            else if s.hvacMode = "dry" then 2
            else if s.hvacMode = "heat_cool" then 3
            else if s.hvacMode = "heat" then 4
            else 1)
    else none

/-! ### The device session (`BroadlinkTadiran.__init__`)

The broadlink transport is external to the repository; following the spec's
transport boundary (§6), a transport behaviour is a pair of outcomes: whether
`broadlink.gendevice` raises `DeviceOfflineError`, and whether `dev.auth()`
raises `DeviceOfflineError` or returns a boolean. -/

/-- Outcome of one external transport call that may raise
`DeviceOfflineError` (`Except.error ()`) or return a value. -/
abbrev TransportCall (α : Type) := Except Unit α

/-- Behaviour of the external broadlink device as observed by
`BroadlinkTadiran.__init__`: the `gendevice` call and the `auth()` call. -/
structure Transport where
  gendevice : TransportCall Unit
  auth : TransportCall Bool
deriving Repr

/-- The two exception classes raised by `BroadlinkTadiran.__init__`
(climate.py lines 362-367). -/
inductive InitError
  | cannotConnect
  | invalidAuth
deriving DecidableEq, Repr

/-- The constructor `BroadlinkTadiran.__init__` (climate.py lines 317-327): a
`DeviceOfflineError` from `gendevice` becomes `CannotConnect`; a
`DeviceOfflineError` from `auth()` becomes `InvalidAuth`; otherwise the
session is constructed with `_available` set to the boolean `auth()`
returned (`.ok b` is the constructed session, `available = b`). -/
def broadlinkTadiranInit (t : Transport) : Except InitError Bool :=
  match t.gendevice with
  | .error _ => .error .cannotConnect
  | .ok _ =>
    match t.auth with
    | .error _ => .error .invalidAuth
    | .ok b => .ok b

/-! ## Lemmas about the bit buffer -/

theorem length_writeField (buf : List Char) (start : Nat) (v : List Char) :
    ∀ n, (writeField buf start v n).length = buf.length
  | 0 => rfl
  | n+1 => by
    simp only [writeField, List.length_set]
    exact length_writeField buf start v n

theorem getD_writeField_out {buf v : List Char} {start i : Nat} :
    ∀ {n : Nat}, i < start ∨ start + n ≤ i →
      (writeField buf start v n).getD i '0' = buf.getD i '0'
  | 0, _ => rfl
  | n+1, h => by
    simp only [writeField]
    rw [List.getD_eq_getD_get?, List.get?_set_ne _ _ (by omega : start + n ≠ i),
      ← List.getD_eq_getD_get?]
    exact getD_writeField_out (by omega)

theorem getD_writeField_in {buf v : List Char} {start i : Nat} :
    ∀ {n : Nat}, start ≤ i → i < start + n → i < buf.length →
      (writeField buf start v n).getD i '0' = v.getD (i - start) '0' := by
  intro n
  induction n with
  | zero => intro h1 h2 _; exact absurd h2 (by omega)
  | succ n ih =>
    intro h1 h2 h3
    by_cases hi : i = start + n
    · subst hi
      simp only [writeField]
      rw [List.getD_eq_getD_get?,
        List.get?_set_eq_of_lt _ (by rw [length_writeField]; exact h3)]
      simp [Nat.add_sub_cancel_left]
    · simp only [writeField]
      rw [List.getD_eq_getD_get?, List.get?_set_ne _ _ (Ne.symm hi),
        ← List.getD_eq_getD_get?]
      exact ih h1 (by omega) h3

theorem length_foldl_packStep (vals : String → Option Int) :
    ∀ (L : List FieldSpec) (buf : List Char),
      (L.foldl (packStep vals) buf).length = buf.length
  | [], _ => rfl
  | e :: L, buf => by
    rw [List.foldl_cons, length_foldl_packStep vals L]
    exact length_writeField _ _ _ _

theorem foldl_packStep_getD_out (vals : String → Option Int) :
    ∀ (L : List FieldSpec) (buf : List Char) (i : Nat),
      (∀ e ∈ L, i < e.shift ∨ e.shift + e.bits ≤ i) →
      (L.foldl (packStep vals) buf).getD i '0' = buf.getD i '0'
  | [], _, _, _ => rfl
  | e :: L, buf, i, h => by
    rw [List.foldl_cons,
      foldl_packStep_getD_out vals L _ i (fun f hf => h f (List.mem_cons_of_mem _ hf))]
    exact getD_writeField_out (h e (List.mem_cons_self _ _))

theorem foldl_packStep_getD_in (vals : String → Option Int) :
    ∀ (L : List FieldSpec) (buf : List Char) (d : FieldSpec), d ∈ L →
      List.Pairwise (fun a b => a.shift + a.bits ≤ b.shift ∨ b.shift + b.bits ≤ a.shift) L →
      (∀ e ∈ L, e.shift + e.bits ≤ buf.length) →
      ∀ j, j < d.bits →
      (L.foldl (packStep vals) buf).getD (d.shift + j) '0' =
        ((pyFormatB d.bits (resolveField vals d)).reverse).getD j '0'
  | [], _, _, hd, _, _, _, _ => absurd hd (List.not_mem_nil _)
  | e :: L, buf, d, hd, hpw, hlen, j, hj => by
    rw [List.foldl_cons]
    rcases List.mem_cons.mp hd with rfl | hd'
    · rw [foldl_packStep_getD_out vals L _ _ ?later]
      case later =>
        intro f hf
        rcases (List.pairwise_cons.mp hpw).1 f hf with h | h <;> omega
      simp only [packStep]
      rw [getD_writeField_in (by omega) (by omega)
        (by have := hlen d (List.mem_cons_self _ _); omega)]
      simp [resolveField, Nat.add_sub_cancel_left]
    · refine foldl_packStep_getD_in vals L _ d hd' (List.pairwise_cons.mp hpw).2 ?_ j hj
      intro f hf
      have hl : (packStep vals buf e).length = buf.length := length_writeField _ _ _ _
      rw [hl]
      exact hlen f (List.mem_cons_of_mem _ hf)

theorem getD_replicate_self (c : Char) : ∀ (k i : Nat), (List.replicate k c).getD i c = c
  | 0, _ => rfl
  | k+1, 0 => rfl
  | k+1, i+1 => by
    simp only [List.replicate_succ, List.getD_cons_succ]
    exact getD_replicate_self c k i

theorem packBits_length (vals : String → Option Int) : (packBits vals).length = 35 := by
  simp only [packBits]
  rw [length_foldl_packStep]
  simp

theorem packBits_getD_field (vals : String → Option Int) (d : FieldSpec)
    (hd : d ∈ unpack) (j : Nat) (hj : j < d.bits) :
    (packBits vals).getD (d.shift + j) '0' =
      ((pyFormatB d.bits (resolveField vals d)).reverse).getD j '0' := by
  simp only [packBits]
  exact foldl_packStep_getD_in vals unpack (List.replicate 35 '0') d hd
    (by decide) (by decide) j hj

theorem packBits_getD_uncovered (vals : String → Option Int) (p : Nat)
    (h : ∀ e ∈ unpack, p < e.shift ∨ e.shift + e.bits ≤ p) :
    (packBits vals).getD p '0' = '0' := by
  simp only [packBits]
  rw [foldl_packStep_getD_out vals unpack _ p h]
  exact getD_replicate_self '0' 35 p

/-! ## Lemmas about the Python binary formatting -/

theorem natBinRevFuel_getD :
    ∀ (fuel n : Nat), n ≤ fuel → ∀ (j : Nat),
      (natBinRevFuel fuel n).getD j '0' = if n / 2^j % 2 = 1 then '1' else '0' := by
  intro fuel
  induction fuel with
  | zero =>
    intro n hn j
    have h0 : n = 0 := by omega
    subst h0
    simp [natBinRevFuel, Nat.zero_div]
  | succ fuel ih =>
    intro n hn j
    by_cases h0 : n = 0
    · subst h0
      simp [natBinRevFuel, Nat.zero_div]
    · simp only [natBinRevFuel, if_neg h0]
      cases j with
      | zero => simp
      | succ j =>
        simp only [List.getD_cons_succ]
        rw [ih (n/2) (by omega) j, Nat.div_div_eq_div_mul, ← pow_succ']

theorem getD_append_right_replicate (A : List Char) (k j : Nat) :
    (A ++ List.replicate k '0').getD j '0' = A.getD j '0' := by
  rcases Nat.lt_or_ge j A.length with h | h
  · exact List.getD_append _ _ _ _ h
  · rw [List.getD_append_right _ _ _ _ h, List.getD_eq_default _ _ h]
    exact getD_replicate_self '0' k (j - A.length)

theorem pyFormatB_rev_getD (w : Nat) (i : Int) (h : 0 ≤ i) (j : Nat) :
    ((pyFormatB w i).reverse).getD j '0' =
      if i.toNat / 2^j % 2 = 1 then '1' else '0' := by
  rw [pyFormatB, if_neg (by omega), padZeros, List.reverse_append,
    List.reverse_replicate, getD_append_right_replicate]
  by_cases hn : i.toNat = 0
  · rw [hn]
    simp only [pyBin, if_pos rfl]
    cases j <;> simp [Nat.zero_div]
  · rw [pyBin, if_neg hn, List.reverse_reverse, natBinRev]
    exact natBinRevFuel_getD _ _ (le_refl _) j

/-! ## Lemmas about the read-out of a field -/

theorem readField_eq_mod :
    ∀ (b : Nat) (w : List Char) (shift n : Nat),
      (∀ j, j < b → w.getD (shift + j) '0' = if n / 2^j % 2 = 1 then '1' else '0') →
      readField w shift b = n % 2^b := by
  intro b
  induction b with
  | zero => intro w shift n _; simp [readField, Nat.mod_one]
  | succ b ih =>
    intro w shift n h
    have h0 := h 0 (by omega)
    simp only [pow_zero, Nat.div_one, Nat.add_zero] at h0
    have hbit : (if w.getD shift '0' = '1' then (1:Nat) else 0) = n % 2 := by
      rw [h0]
      rcases Nat.mod_two_eq_zero_or_one n with hm | hm <;> rw [hm] <;> rfl
    have ht : readField w (shift+1) b = (n/2) % 2^b := by
      refine ih w (shift+1) (n/2) ?_
      intro j hj
      have hx := h (j+1) (by omega)
      have e : shift + (j+1) = shift + 1 + j := by omega
      rw [e] at hx
      rw [hx, Nat.div_div_eq_div_mul, ← pow_succ']
    simp only [readField, ht, hbit]
    rw [pow_succ' 2 b]
    generalize (2:Nat)^b = M
    have e4 : n / 2 / M = n / (2 * M) := Nat.div_div_eq_div_mul n 2 M
    have e2 : n / 2 % M + M * (n / 2 / M) = n / 2 := Nat.mod_add_div _ _
    rw [e4] at e2
    have e3 : n % (2 * M) + 2 * M * (n / (2 * M)) = n := Nat.mod_add_div _ _
    rw [mul_assoc] at e3
    omega

/-! ## Lemmas about the pulse serialization and its test-only inverse -/

theorem pulses_length : ∀ l : List Char, (pulses l).length = 2 * l.length
  | [] => rfl
  | c :: l => by
    have ih := pulses_length l
    simp only [pulses, List.flatMap_cons, List.length_append, List.length_cons,
      List.length_nil] at ih ⊢
    omega

theorem pairsSecond_pulses : ∀ l : List Char,
    pairsSecond (pulses l) = l.map (fun c => if c = '0' then (19:Nat) else 55)
  | [] => rfl
  | c :: l => by
    have ih := pairsSecond_pulses l
    simp only [pulses, List.flatMap_cons, List.cons_append, List.nil_append,
      List.map_cons] at *
    rw [pairsSecond, ih]

theorem decodeWord_pack (vals : String → Option Int) :
    decodeWord (pack vals) = (packBits vals).map (fun c => if c = '0' then '0' else '1') := by
  have hdrop : (pack vals).drop 8 = pulses (packBits vals) ++ SUFFIX_BYTES := by
    simp only [pack]
    rw [List.append_assoc, show (8:Nat) = PREFIX_BYTES.length from rfl, List.drop_left]
  have hcomp : (pulseBitChar ∘ fun c => if c = '0' then (19:Nat) else 55) =
      fun c => if c = '0' then '0' else '1' := by
    funext c
    by_cases hc : c = '0' <;> simp [pulseBitChar, hc, Function.comp]
  have h70 : (70:Nat) = (pulses (packBits vals)).length := by
    rw [pulses_length, packBits_length]
  simp only [decodeWord]
  rw [hdrop, h70, List.take_left, pairsSecond_pulses, List.map_map, hcomp]

theorem getD_map_char (l : List Char) (f : Char → Char) (p : Nat) (hp : p < l.length) :
    (l.map f).getD p '0' = f (l.getD p '0') := by
  rw [List.getD_eq_getElem _ _ (by simpa using hp), List.getElem_map,
    List.getD_eq_getElem _ _ hp]

/-! ## Derived packer facts -/

theorem packBits_bitChar (vals : String → Option Int) (d : FieldSpec)
    (hd : d ∈ unpack) (h0 : 0 ≤ resolveField vals d) (j : Nat) (hj : j < d.bits) :
    (packBits vals).getD (d.shift + j) '0' =
      if (resolveField vals d).toNat / 2^j % 2 = 1 then '1' else '0' := by
  rw [packBits_getD_field vals d hd j hj, pyFormatB_rev_getD _ _ h0]

theorem readField_packBits (vals : String → Option Int) (d : FieldSpec)
    (hd : d ∈ unpack) (h0 : 0 ≤ resolveField vals d) :
    readField (packBits vals) d.shift d.bits = (resolveField vals d).toNat % 2^d.bits :=
  readField_eq_mod d.bits _ d.shift _ (fun j hj => packBits_bitChar vals d hd h0 j hj)

theorem readField_decode_pack (vals : String → Option Int) (d : FieldSpec)
    (hd : d ∈ unpack) (h0 : 0 ≤ resolveField vals d) :
    readField (decodeWord (pack vals)) d.shift d.bits =
      (resolveField vals d).toNat % 2^d.bits := by
  apply readField_eq_mod
  intro j hj
  rw [decodeWord_pack]
  have htab : ∀ e ∈ unpack, e.shift + e.bits ≤ 35 := by decide
  have hlt : d.shift + j < (packBits vals).length := by
    rw [packBits_length]
    have := htab d hd
    omega
  rw [getD_map_char _ _ _ hlt, packBits_bitChar vals d hd h0 j hj]
  by_cases hb : (resolveField vals d).toNat / 2^j % 2 = 1 <;> simp [hb]

theorem foldl_packStep_congr (m1 m2 : String → Option Int) :
    ∀ (L : List FieldSpec) (buf : List Char),
      (∀ d ∈ L, m1 d.name = m2 d.name) →
      L.foldl (packStep m1) buf = L.foldl (packStep m2) buf
  | [], _, _ => rfl
  | e :: L, buf, h => by
    rw [List.foldl_cons, List.foldl_cons]
    have he : packStep m1 buf e = packStep m2 buf e := by
      simp only [packStep, h e (List.mem_cons_self _ _)]
    rw [he]
    exact foldl_packStep_congr m1 m2 L _ (fun d hd => h d (List.mem_cons_of_mem _ hd))

theorem pulses_getD : ∀ (l : List Char) (p : Nat), p < l.length →
    (pulses l).getD (2*p) 0 = 0x16 ∧
    (pulses l).getD (2*p + 1) 0 = (if l.getD p '0' = '0' then 19 else 55)
  | [], p, hp => absurd hp (by simp)
  | c :: l, 0, _ => by
    constructor <;> simp [pulses, List.flatMap_cons]
  | c :: l, p+1, hp => by
    have ih := pulses_getD l p (by simpa using hp)
    constructor
    · have e1 : 2*(p+1) = 2*p + 1 + 1 := by omega
      rw [e1]
      show ((0x16 : Nat) :: (if c = '0' then 19 else 55) :: pulses l).getD (2*p+1+1) 0 = 0x16
      rw [List.getD_cons_succ, List.getD_cons_succ]
      exact ih.1
    · have e2 : 2*(p+1) + 1 = 2*p + 1 + 1 + 1 := by omega
      rw [e2]
      show ((0x16 : Nat) :: (if c = '0' then 19 else 55) :: pulses l).getD (2*p+1+1+1) 0 =
        (if (c :: l).getD (p+1) '0' = '0' then 19 else 55)
      rw [List.getD_cons_succ, List.getD_cons_succ, List.getD_cons_succ]
      exact ih.2

theorem pack_getD_body (vals : String → Option Int) (k : Nat) (hk : k < 70) :
    (pack vals).getD (8 + k) 0 = (pulses (packBits vals)).getD k 0 := by
  rw [pack, List.append_assoc]
  rw [List.getD_append_right _ _ _ _ (by simp [PREFIX_BYTES] : PREFIX_BYTES.length ≤ 8 + k)]
  rw [show 8 + k - PREFIX_BYTES.length = k from by simp [PREFIX_BYTES]]
  exact List.getD_append _ _ _ _ (by rw [pulses_length, packBits_length]; omega)

/-! ## Claim theorems -/

/-- C9: the static `unpack` field table satisfies the schema invariant: the
bit ranges of distinct rows are pairwise disjoint (no two fields occupy
overlapping bit positions), and `shift + bits ≤ 35` (the command word width)
for every row. -/
theorem unpack_table_invariant :
    List.Pairwise
      (fun a b => a.shift + a.bits ≤ b.shift ∨ b.shift + b.bits ≤ a.shift) unpack ∧
    unpack.all (fun d => decide (d.shift + d.bits ≤ 35)) = true := by
  decide

/-- C7: for every field whose resolved value is nonnegative and fits its
declared width, `pack` writes that value into the 35-bit command word as a
`bits`-wide binary string, least-significant bit first, starting at position
`shift`; and every bit position covered by no field is `'0'`. -/
theorem pack_writes_fields_lsb_first (vals : String → Option Int) :
    (∀ d ∈ unpack, 0 ≤ resolveField vals d → resolveField vals d < (2:Int)^d.bits →
      ∀ j < d.bits, (packBits vals).getD (d.shift + j) '0' =
        (if (resolveField vals d).toNat / 2^j % 2 = 1 then '1' else '0')) ∧
    (∀ p < 35, (∀ e ∈ unpack, p < e.shift ∨ e.shift + e.bits ≤ p) →
      (packBits vals).getD p '0' = '0') := by
  constructor
  · intro d hd h0 _ j hj
    exact packBits_bitChar vals d hd h0 j hj
  · intro p _ hp
    exact packBits_getD_uncovered vals p hp

/-- Witness for C7: with `temp = 9` the bit at position `8 + 0` is `'1'`
(bit 0 of 9), and the uncovered position 13 is `'0'`. -/
theorem pack_writes_fields_lsb_first_witness :
    (packBits (fun n => if n = "temp" then some 9 else none)).getD (8 + 0) '0' = '1' ∧
    (packBits (fun n => if n = "temp" then some 9 else none)).getD 13 '0' = '0' := by
  constructor
  · exact ((pack_writes_fields_lsb_first (fun n => if n = "temp" then some 9 else none)).1
      ⟨"temp", 8, 4, 20⟩ (by decide) (by decide) (by decide) 0 (by decide)).trans (by decide)
  · exact (pack_writes_fields_lsb_first (fun n => if n = "temp" then some 9 else none)).2
      13 (by decide) (by decide)

/-- C1 counterexample: `pack` does not fail on the out-of-range value 16 for
the 4-bit `temp` field — it produces the very same frame as the in-range
value 0 (a silent wrap-around) — and a negative value is likewise accepted
(a full 92-byte frame is produced instead of an `OutOfRange` failure). -/
theorem pack_out_of_range_counterexample :
    pack (fun n => if n = "temp" then some 16 else none) =
      pack (fun n => if n = "temp" then some 0 else none) ∧
    (pack (fun n => if n = "temp" then some (-3) else none)).length = 92 :=
  ⟨rfl, rfl⟩

/-- C1 (amended): `pack` has no failure path at all: every field whose
resolved value is nonnegative is encoded as that value reduced modulo
`2^bits` — an out-of-range value is silently masked to the field width
rather than rejected, and negative values are also accepted (encoded through
Python's signed binary formatting). -/
theorem pack_masks_resolved_values (vals : String → Option Int) :
    ∀ d ∈ unpack, 0 ≤ resolveField vals d →
      readField (packBits vals) d.shift d.bits =
        (resolveField vals d).toNat % 2^d.bits :=
  fun d hd h0 => readField_packBits vals d hd h0

/-- Witness for C1's amended theorem: `temp = 20` (which needs 5 bits) is
masked to `20 % 16 = 4`. -/
theorem pack_masks_resolved_values_witness :
    readField (packBits (fun n => if n = "temp" then some 20 else none)) 8 4 = 4 :=
  (pack_masks_resolved_values (fun n => if n = "temp" then some 20 else none)
    ⟨"temp", 8, 4, 20⟩ (by decide) (by decide)).trans (by decide)

/-- C5 counterexample: pack the empty FieldValues map (every present value
vacuously fits its width) and decode the frame: the `temp` field reads back
as 4, not as its table default 20 (the row `⟨"temp", 8, 4, 20⟩` of the
table) — the default itself does not fit the 4-bit width and is masked. -/
theorem roundtrip_default_counterexample :
    readField (decodeWord (pack (fun _ => none))) 8 4 = 4 ∧
    (⟨"temp", 8, 4, 20⟩ : FieldSpec) ∈ unpack :=
  ⟨rfl, by decide⟩

/-- C5 (amended): for every FieldValues map whose resolved values — the
present value of a field, or the table default when the field is omitted —
are nonnegative and fit their fields' bit widths, decoding the produced
PulseFrame's pulse pairs back into the 35-bit command word and reading out
each field at its shift and width recovers exactly the resolved value (in
particular the default for every omitted field). -/
theorem roundtrip_resolved_values (vals : String → Option Int)
    (h : ∀ d ∈ unpack, 0 ≤ resolveField vals d ∧ resolveField vals d < (2:Int)^d.bits) :
    ∀ d ∈ unpack,
      readField (decodeWord (pack vals)) d.shift d.bits = (resolveField vals d).toNat := by
  intro d hd
  have h0 := (h d hd).1
  have h1 := (h d hd).2
  rw [readField_decode_pack vals d hd h0]
  apply Nat.mod_eq_of_lt
  have hcast : ((2^d.bits : Nat) : Int) = (2:Int)^d.bits := by push_cast; ring
  omega

/-- Witness for C5's amended theorem: with `temp = 5` present and everything
else defaulted, the decoded `temp` field is 5. -/
theorem roundtrip_resolved_values_witness :
    readField (decodeWord (pack (fun n => if n = "temp" then some 5 else none))) 8 4 = 5 :=
  (roundtrip_resolved_values (fun n => if n = "temp" then some 5 else none)
    (by decide) ⟨"temp", 8, 4, 20⟩ (by decide)).trans (by decide)

/-- C6: `pack` is a pure function of the FieldValues map (determinism is
intrinsic to the embedding); two maps that agree on every field name of the
table produce byte-identical frames, and the frame length is always
`8 + 2*35 + 14 = 92` bytes. -/
theorem pack_deterministic_fixed_length (m1 m2 : String → Option Int)
    (h : ∀ d ∈ unpack, m1 d.name = m2 d.name) :
    pack m1 = pack m2 ∧ (pack m1).length = 8 + 2*35 + 14 := by
  constructor
  · have hs : packBits m1 = packBits m2 := by
      simp only [packBits]
      exact foldl_packStep_congr m1 m2 unpack _ h
    simp [pack, hs]
  · simp [pack, List.length_append, pulses_length, packBits_length, PREFIX_BYTES,
      SUFFIX_BYTES]

/-- Witness for C6: a map carrying an extra non-table key produces the same
92-byte frame as one without it. -/
theorem pack_deterministic_fixed_length_witness :
    pack (fun n => if n = "mode" then some 2 else if n = "frobnicate" then some 7 else none) =
      pack (fun n => if n = "mode" then some 2 else none) ∧
    (pack (fun n => if n = "mode" then some 2 else
        if n = "frobnicate" then some 7 else none)).length = 8 + 2*35 + 14 :=
  pack_deterministic_fixed_length _ _ (by decide)

/-- C8: the frame is byte-exactly the fixed 8-byte preamble, then for every
bit position `0..34` of the command word in ascending order the pulse pair
`(0x16, 19)` for a `'0'` bit and `(0x16, 55)` otherwise, then byte-exactly
the fixed 14-byte suffix. -/
theorem pack_frame_layout (vals : String → Option Int) :
    (pack vals).take 8 = [0x26, 0x00, 0x4e, 0x00, 0x00, 0x01, 0x27, 0x93] ∧
    (pack vals).drop 78 = [0x14, 0x00, 0x0d, 0x05, 0, 0, 0, 0, 0, 0, 0, 0, 0, 0] ∧
    ∀ p < 35, (pack vals).getD (8 + 2*p) 0 = 0x16 ∧
      (pack vals).getD (8 + 2*p + 1) 0 =
        (if (packBits vals).getD p '0' = '0' then 19 else 55) := by
  refine ⟨?_, ?_, ?_⟩
  · rw [pack, List.append_assoc,
      show (8:Nat) = PREFIX_BYTES.length from rfl, List.take_left]
    rfl
  · rw [pack]
    have hlen : (PREFIX_BYTES ++ pulses (packBits vals)).length = 78 := by
      rw [List.length_append, pulses_length, packBits_length]
      rfl
    rw [show (78:Nat) = (PREFIX_BYTES ++ pulses (packBits vals)).length from hlen.symm,
      List.drop_left]
    rfl
  · intro p hp
    have hb := pulses_getD (packBits vals) p (by rw [packBits_length]; exact hp)
    constructor
    · rw [pack_getD_body vals (2*p) (by omega)]
      exact hb.1
    · rw [show 8 + 2*p + 1 = 8 + (2*p + 1) from by omega,
        pack_getD_body vals (2*p + 1) (by omega)]
      exact hb.2

/-- Witness for C8: the preamble of the all-defaults frame, and the marker
byte of its first pulse pair. -/
theorem pack_frame_layout_witness :
    (pack (fun _ => none)).take 8 = [0x26, 0x00, 0x4e, 0x00, 0x00, 0x01, 0x27, 0x93] ∧
    (pack (fun _ => none)).getD (8 + 2*0) 0 = 0x16 :=
  ⟨(pack_frame_layout (fun _ => none)).1,
   ((pack_frame_layout (fun _ => none)).2.2 0 (by decide)).1⟩

/-- C10: the bytes `send` hands to the transport depend only on the entries
of the argument map at the nine field names of the table (a Python `None`
value and an absent key are both `none`): two maps agreeing there — whatever
extra keys either carries — produce identical frames. -/
theorem send_depends_only_on_table_fields (m1 m2 : String → Option Int)
    (h : ∀ d ∈ unpack, m1 d.name = m2 d.name) :
    send m1 = send m2 := by
  have hf : ∀ d ∈ unpack, send_filter m1 d.name = send_filter m2 d.name := by
    intro d hd
    simp only [send_filter]
    rw [h d hd]
  simp only [send]
  have hs : packBits (send_filter m1) = packBits (send_filter m2) := by
    simp only [packBits]
    exact foldl_packStep_congr _ _ unpack _ hf
  simp [pack, hs]

/-- Witness for C10: a map with only a non-table key sends the same bytes as
the empty map. -/
theorem send_depends_only_on_table_fields_witness :
    send (fun n => if n = "humidity" then some 99 else none) = send (fun _ => none) :=
  send_depends_only_on_table_fields _ _ (by decide)

/-- C3 counterexample: the hvac mode string `"auto"` is not a key of the
mode lookup table of `send_state`, yet it is sent as field value 1 (the
dict's `.get` fallback, the same code as cool), not 0. -/
theorem unmapped_mode_counterexample :
    send_state_args { initClimate with hvacMode := "auto" } "mode" = some 1 ∧
    send_state_args { initClimate with hvacMode := "cool" } "mode" = some 1 :=
  ⟨rfl, rfl⟩

/-- C3 (amended): the mode/intent mapping sends field value 1 — the same
code as cool, the dict's `.get` fallback — for any hvac mode enumeration not
in the lookup table; and field value 0 — the same code as auto — for any fan
speed not in `{low, medium, high}`. -/
theorem mode_fan_fallback_codes (s : ClimateState) :
    (s.hvacMode ∉ ["off", "fan_only", "cool", "dry", "heat_cool", "heat"] →
      send_state_args s "mode" = some 1) ∧
    (s.fanMode ∉ ["low", "medium", "high"] →
      send_state_args s "fan" = some 0) := by
  constructor
  · intro h
    simp only [List.mem_cons, List.not_mem_nil, or_false, not_or] at h
    obtain ⟨h1, h2, h3, h4, h5, h6⟩ := h
    simp [send_state_args, h1, h2, h3, h4, h5, h6]
  · intro h
    simp only [List.mem_cons, List.not_mem_nil, or_false, not_or] at h
    obtain ⟨h1, h2, h3⟩ := h
    by_cases ha : s.fanMode = "auto" <;> simp [send_state_args, ha, h1, h2, h3]

/-- Witness for C3's amended theorem: `"sleep"` is an unmapped hvac mode and
is sent as 1; `"turbo"` is an unmapped fan speed and is sent as 0. -/
theorem mode_fan_fallback_codes_witness :
    send_state_args { initClimate with hvacMode := "sleep" } "mode" = some 1 ∧
    send_state_args { initClimate with fanMode := "turbo" } "fan" = some 0 :=
  ⟨(mode_fan_fallback_codes { initClimate with hvacMode := "sleep" }).1 (by decide),
   (mode_fan_fallback_codes { initClimate with fanMode := "turbo" }).2 (by decide)⟩

/-- C2 (evaluation of the code at the failing input): after
`set_hvac_mode("heat")` then `set_hvac_mode("off")`, the stored last mode is
`"off"` — line 229 updates `_last_hvac_mode` only when the new mode *is*
`HVAC_MODE_OFF` — so `async_turn_on` replays `"off"` and the entity stays
off instead of restoring `"heat"`. -/
theorem turn_on_after_off_stays_off :
    (turn_on (set_hvac_mode (set_hvac_mode initClimate "heat") "off")).hvacMode = "off" ∧
    (set_hvac_mode (set_hvac_mode initClimate "heat") "off").lastHvacMode = "off" :=
  ⟨rfl, rfl⟩

/-- C4 counterexample: when the transport handle is constructed but the
`auth()` call raises `DeviceOfflineError` (the device is unreachable during
the handshake), construction raises `InvalidAuth` — not `CannotConnect`;
and when `auth()` returns `False` (reachable but rejected), construction
succeeds with `available = false` instead of raising `InvalidAuth`. -/
theorem session_init_counterexample :
    broadlinkTadiranInit ⟨.ok (), .error ()⟩ = .error .invalidAuth ∧
    broadlinkTadiranInit ⟨.ok (), .error ()⟩ ≠ .error .cannotConnect ∧
    broadlinkTadiranInit ⟨.ok (), .ok false⟩ = .ok false :=
  ⟨rfl, by simp [broadlinkTadiranInit], rfl⟩

/-- C4 (amended): construction raises `CannotConnect` exactly when the
`gendevice` call reports the device offline; it raises `InvalidAuth` when
the `auth()` call reports the device offline; and when `auth()` returns a
boolean the session is constructed and `available` equals that boolean (so
`available` is true iff the authentication call returned `True`). -/
theorem session_init_behaviour (t : Transport) :
    (∀ e, t.gendevice = .error e → broadlinkTadiranInit t = .error .cannotConnect) ∧
    (∀ u e, t.gendevice = .ok u → t.auth = .error e →
      broadlinkTadiranInit t = .error .invalidAuth) ∧
    (∀ u b, t.gendevice = .ok u → t.auth = .ok b →
      broadlinkTadiranInit t = .ok b) := by
  refine ⟨?_, ?_, ?_⟩
  · intro e he
    simp [broadlinkTadiranInit, he]
  · intro u e hg ha
    simp [broadlinkTadiranInit, hg, ha]
  · intro u b hg ha
    simp [broadlinkTadiranInit, hg, ha]

/-- Witness for C4's amended theorem at the three concrete transports. -/
theorem session_init_behaviour_witness :
    broadlinkTadiranInit ⟨.error (), .ok true⟩ = .error .cannotConnect ∧
    broadlinkTadiranInit ⟨.ok (), .error ()⟩ = .error .invalidAuth ∧
    broadlinkTadiranInit ⟨.ok (), .ok true⟩ = .ok true :=
  ⟨(session_init_behaviour ⟨.error (), .ok true⟩).1 () rfl,
   (session_init_behaviour ⟨.ok (), .error ()⟩).2.1 () () rfl rfl,
   (session_init_behaviour ⟨.ok (), .ok true⟩).2.2 () true rfl rfl⟩
